import Mathlib

/-!
# Import extraction for the JavaScript Gazelle extension (`gazelle/parser.go`)

A shallow embedding of `Scanner.Scan`, `filenameToLoader` and
`Parser.ParseImports`, together with the parts of the Go standard library
(`path/filepath`, `io/ioutil`, `log`, `regexp`) and of esbuild's plugin API
(`github.com/evanw/esbuild/pkg/api`) that these three functions call.

Conventions.
* A Go `string` is an immutable sequence of bytes: `GoString = List UInt8`.
* A Go `error` value is `Option _`, `none` being `nil`.
* A closure that assigns to a captured variable becomes a function that takes
  the captured variable and returns its new value.
* Output written through package `log` is returned next to the Go return
  value, as the list of `log.Printf` calls in the order they were made.
* `Parser.ParseImportsIn` is the same function as a step of the process: it
  takes and returns the process state (heap, log, what esbuild prints and
  writes), so that calls can be made one after the other.
* Path handling follows the Unix build of `path/filepath` (separator `/`).
-/

namespace Gazelle

/-! ## Go strings -/

/-- A Go string: a sequence of bytes (not necessarily valid UTF-8). -/
abbrev GoString := List UInt8

/-- The bytes of a Go string literal (Go source text is UTF-8). -/
def str (s : String) : GoString := s.data.flatMap String.utf8EncodeChar

/-! ## `path/filepath` (Unix) -/

/-- Go `os.IsPathSeparator` on Unix: the byte is a slash. -/
def IsPathSeparator (c : UInt8) : Bool := c == 47

/-- The loop of `filepath.Ext`:
`for i := len(path) - 1; i >= 0 && !os.IsPathSeparator(path[i]); i--`, with
body `if path[i] == '.' { return path[i:] }`, and `return ""` after the loop.
The counter argument is `i + 1`, so that `0` stands for `i = -1`. -/
def Ext.loop (path : GoString) : Nat → GoString
  | 0 => []
  | i + 1 =>
    match path[i]? with
    | none => []
    | some c =>
      if IsPathSeparator c then []
      else if c = 46 then path.drop i
      else Ext.loop path i

/-- Go `filepath.Ext`: the file name extension used by `path`. -/
def Ext (path : GoString) : GoString := Ext.loop path path.length

/-- The last element of a slash-separated path: what follows the last slash,
or the whole path when it has none. -/
def lastElement (path : GoString) : GoString :=
  (path.reverse.takeWhile (fun c => !IsPathSeparator c)).reverse

/-- The suffix of `e` that starts at its last dot; empty when `e` has no dot. -/
def suffixFromLastDot (e : GoString) : GoString :=
  if (46 : UInt8) ∈ e then 46 :: (e.reverse.takeWhile (fun c => decide (c ≠ 46))).reverse
  else []

/-! ## esbuild loaders -/

/-- The esbuild `api.Loader` enumeration (the constants of `pkg/api`). -/
inductive Loader
  | LoaderNone
  | LoaderBase64
  | LoaderBinary
  | LoaderCopy
  | LoaderCSS
  | LoaderDataURL
  | LoaderDefault
  | LoaderEmpty
  | LoaderFile
  | LoaderJS
  | LoaderJSON
  | LoaderJSX
  | LoaderText
  | LoaderTS
  | LoaderTSX
  deriving DecidableEq, Repr

/-- Go `filenameToLoader`: takes in a filename, e.g. myFile.ts, and returns the
appropriate esbuild loader for that file. -/
def filenameToLoader (filename : GoString) : Loader :=
  let ext := Ext filename
  if ext = str ".ts" then Loader.LoaderTS
  else if ext = str ".tsx" then Loader.LoaderTSX
  else if ext = str ".js" then Loader.LoaderJSX
  else if ext = str ".jsx" then Loader.LoaderJSX
  else Loader.LoaderTS

/-- The loop of `filepath.Ext` read off the reversed prefix still to be
visited, `suf` being the bytes already passed over (used to reason about
`Ext.loop`). -/
def extRev : List UInt8 → GoString → GoString
  | [], _ => []
  | c :: r, suf =>
    if IsPathSeparator c then []
    else if c = 46 then c :: suf
    else extRev r (c :: suf)

/-! ## `io/ioutil` over a file-system state -/

/-- The error numbers a read can fail with. -/
inductive Errno
  | ENOENT
  | EACCES
  | EISDIR
  | EIO
  deriving DecidableEq, Repr

/-- Go `*fs.PathError`: the operation, the path and the cause. -/
structure PathError where
  Op : GoString
  Path : GoString
  Err : Errno
  deriving DecidableEq, Repr

/-- What opening a path gives when it succeeds: a file that reads to its end,
or one whose read fails with `err` after `data` has been read. -/
inductive File
  | regular (data : List UInt8)
  | failing (data : List UInt8) (err : Errno)
  deriving DecidableEq, Repr

/-- A file-system state: for each path, the error `open` fails with (`ENOENT`
when nothing exists at the path) or the file found there. -/
abbrev FileSystem := GoString → Except Errno File

/-- Go `ioutil.ReadFile` (`os.ReadFile`): `f, err := Open(name); if err != nil
{ return nil, err }`, then the read loop, which returns the bytes read so far
with the error of the read, `io.EOF` counting as success. -/
def ReadFile (fs : FileSystem) (name : GoString) : List UInt8 × Option PathError :=
  match fs name with
  | .error e => ([], some { Op := str "open", Path := name, Err := e })
  | .ok (.regular data) => (data, none)
  | .ok (.failing data e) => (data, some { Op := str "read", Path := name, Err := e })

/-- Scanner reads a file into a string. -/
structure Scanner where
  deriving DecidableEq, Repr

/-- Go `NewScanner`. -/
def NewScanner : Scanner := {}

/-- Go `Scanner.Scan`: reads a file named name in directory dir into a string.
The result is the Go pair `(error, string)`. `Join` is `filepath.Join` on two
elements, taken as given; `string(content)` keeps the bytes as they are. -/
def Scanner.Scan (_s : Scanner) (Join : GoString → GoString → GoString)
    (fs : FileSystem) (dir name : GoString) : Option PathError × GoString :=
  let fpath := Join dir name
  let (content, err) := ReadFile fs fpath
  (err, content)

/-! ## Go `regexp`, for the fragment the plugin filter is written in -/

/-- Parsed regular expressions (the operators of `regexp/syntax` that literals,
`.` and `*` give rise to). -/
inductive Regexp
  | noMatch
  | emptyMatch
  | literal (b : UInt8)
  | anyCharNotNL
  | concat (a b : Regexp)
  | alternate (a b : Regexp)
  | star (a : Regexp)
  deriving DecidableEq, Repr

/-- The bytes with a special meaning in a pattern: `\ . + * ? ( ) | [ ] { } ^ $`. -/
def isMeta (c : UInt8) : Bool :=
  (str "\\.+*?()|[]{}^$").contains c

/-- One pattern byte as an expression: `.`, or a byte that stands for itself.
Any other special byte is outside the fragment. -/
def parseAtom (c : UInt8) : Option Regexp :=
  if c = 46 then some Regexp.anyCharNotNL
  else if isMeta c then none
  else some (Regexp.literal c)

/-- One step of the parser over the pattern bytes. The state is the stack of
items parsed so far (last one on top) and whether a `*` may follow; `none` is
a parse error. A `*` with nothing to repeat and a `*` right after a `*` are
errors, as in Go. -/
def parseStep (st : Option (List Regexp × Bool)) (c : UInt8) : Option (List Regexp × Bool) :=
  match st with
  | none => none
  | some (stack, mayRepeat) =>
    if c = 42 then
      match stack, mayRepeat with
      | a :: below, true => some (Regexp.star a :: below, false)
      | _, _ => none
    else
      match parseAtom c with
      | none => none
      | some a => some (a :: stack, true)

/-- Go `regexp.Compile` on the fragment: `none` is a compile error, otherwise
the concatenation of the items of the pattern. -/
def Compile (expr : GoString) : Option Regexp :=
  (expr.foldl parseStep (some ([], false))).map
    (fun st => st.1.reverse.foldr Regexp.concat Regexp.emptyMatch)

/-- Whether the expression matches the empty string. -/
def Regexp.nullable : Regexp → Bool
  | .noMatch => false
  | .emptyMatch => true
  | .literal _ => false
  | .anyCharNotNL => false
  | .concat a b => a.nullable && b.nullable
  | .alternate a b => a.nullable || b.nullable
  | .star _ => true

/-- The expression that matches `s` exactly when the given one matches `c`
followed by `s`. Matching goes byte by byte: `.` takes any byte but a newline
(Go takes a whole UTF-8 sequence there, the same thing on ASCII text). -/
def Regexp.deriv (c : UInt8) : Regexp → Regexp
  | .noMatch => .noMatch
  | .emptyMatch => .noMatch
  | .literal b => if b = c then .emptyMatch else .noMatch
  | .anyCharNotNL => if c = 10 then .noMatch else .emptyMatch
  | .concat a b =>
    if a.nullable then .alternate (.concat (a.deriv c) b) (b.deriv c)
    else .concat (a.deriv c) b
  | .alternate a b => .alternate (a.deriv c) (b.deriv c)
  | .star a => .concat (a.deriv c) (.star a)

/-- Whether the expression matches the whole of `s`. -/
def Regexp.fullMatch (re : Regexp) (s : GoString) : Bool :=
  (s.foldl (fun r c => r.deriv c) re).nullable

/-- Go `(*Regexp).MatchString`: reports whether the string `s` contains any
match of the regular expression, that is, whether some `s[i:i+n]` matches. -/
def Regexp.MatchString (re : Regexp) (s : GoString) : Bool :=
  (List.range (s.length + 1)).any fun i =>
    (List.range (s.length - i + 1)).any fun n => re.fullMatch ((s.drop i).take n)

/-! ## esbuild: the plugin API (`pkg/api`) -/

/-- esbuild `api.Message`, the fields that identify an error. -/
structure Message where
  PluginName : GoString
  Text : GoString
  deriving DecidableEq, Repr

/-- esbuild `api.ResolveKind`. -/
inductive ResolveKind
  | ResolveNone
  | ResolveEntryPoint
  | ResolveJSImportStatement
  | ResolveJSRequireCall
  | ResolveJSDynamicImport
  | ResolveJSRequireResolve
  | ResolveCSSImportRule
  | ResolveCSSURLToken
  deriving DecidableEq, Repr

/-- esbuild `api.OnResolveOptions`. -/
structure OnResolveOptions where
  Filter : GoString
  Namespace : GoString
  deriving DecidableEq, Repr

/-- esbuild `api.OnResolveArgs` (without `PluginData`): `Path` is the
specifier as written, `Namespace` the namespace of the importing file. -/
structure OnResolveArgs where
  Path : GoString
  Importer : GoString
  Namespace : GoString
  ResolveDir : GoString
  Kind : ResolveKind
  deriving DecidableEq, Repr

/-- esbuild `api.OnResolveResult`, the fields that decide how the import is
resolved; every field has the Go zero value unless set. -/
structure OnResolveResult where
  PluginName : GoString := []
  Errors : List Message := []
  Warnings : List Message := []
  Path : GoString := []
  External : Bool := false
  Namespace : GoString := []
  deriving DecidableEq, Repr

/-- A Go `error` returned by a callback: its message. -/
abbrev GoError := GoString

/-- An `OnResolve` callback, a closure over variables of type `σ`: it takes the
arguments and the captured variables, and gives back its two Go results and
the captured variables as it leaves them. -/
abbrev Callback (σ : Type) := OnResolveArgs → σ → (OnResolveResult × Option GoError) × σ

/-- esbuild `api.PluginBuild` as a plugin's `Setup` sees it: the `OnResolve`
registrations made so far, in order. -/
abbrev PluginBuild (σ : Type) := List (OnResolveOptions × Callback σ)

/-- esbuild `pluginBuild.OnResolve(options, callback)`: registers the callback. -/
def PluginBuild.OnResolve {σ : Type} (pluginBuild : PluginBuild σ)
    (options : OnResolveOptions) (callback : Callback σ) : PluginBuild σ :=
  pluginBuild ++ [(options, callback)]

/-- esbuild `api.Plugin`. -/
structure Plugin (σ : Type) where
  Name : GoString
  Setup : PluginBuild σ → PluginBuild σ

/-- esbuild `api.StdinOptions`, the fields set here. -/
structure StdinOptions where
  Contents : GoString
  Sourcefile : GoString
  Loader : Loader
  deriving DecidableEq, Repr

/-- esbuild `api.LogLevel`; the zero value is the silent level. -/
inductive LogLevel
  | LogLevelSilent
  | LogLevelVerbose
  | LogLevelDebug
  | LogLevelInfo
  | LogLevelWarning
  | LogLevelError
  deriving DecidableEq, Repr

/-- esbuild `api.OutputFile`. -/
structure OutputFile where
  Path : GoString
  Contents : List UInt8
  deriving DecidableEq, Repr

/-- esbuild `api.BuildOptions`: the fields set here, and the two that decide
what a build puts out, `LogLevel` and `Write`. A field that is not set has the
Go zero value; `Stdin` is a pointer. -/
structure BuildOptions (σ : Type) where
  LogLevel : LogLevel := LogLevel.LogLevelSilent
  Stdin : Option StdinOptions := none
  Plugins : List (Plugin σ) := []
  Bundle : Bool := false
  Write : Bool := false

/-- esbuild `api.BuildResult`: the message lists and the output files. -/
structure BuildResult where
  Errors : List Message := []
  Warnings : List Message := []
  OutputFiles : List OutputFile := []
  deriving DecidableEq, Repr

/-! ## esbuild: running the resolve hooks (`internal/config`, `internal/bundler`) -/

/-- esbuild `logger.Path`: a path text within a namespace. -/
structure Path where
  Text : GoString
  Namespace : GoString
  deriving DecidableEq, Repr

/-- esbuild `config.PluginAppliesToPath`:
`(namespace == "" || path.Namespace == namespace) && filter.MatchString(path.Text)`. -/
def PluginAppliesToPath (path : Path) (filter : Regexp) (ns : GoString) : Bool :=
  (ns = [] || path.Namespace = ns) && filter.MatchString path.Text

/-- esbuild `config.OnResolve`: a registered hook, its filter compiled. -/
structure OnResolve (σ : Type) where
  Name : GoString
  Filter : Regexp
  Namespace : GoString
  Callback : Callback σ

/-- The hooks one plugin registers: its `Setup` runs on an empty
`PluginBuild`, and each registration whose filter compiles becomes a hook; one
whose filter does not compile is dropped and reported as an error of the
plugin (the message text is kept to the filter itself). -/
def loadPlugin {σ : Type} (plugin : Plugin σ) : List (OnResolve σ) × List Message :=
  (plugin.Setup []).foldl
    (fun acc reg =>
      match Compile reg.1.Filter with
      | some filter =>
        (acc.1 ++ [{ Name := plugin.Name, Filter := filter,
                     Namespace := reg.1.Namespace, Callback := reg.2 }], acc.2)
      | none =>
        (acc.1, acc.2 ++ [{ PluginName := plugin.Name, Text := reg.1.Filter }]))
    ([], [])

/-- esbuild `loadPlugins`: the hooks of all plugins, in plugin order and, within
a plugin, in registration order, with the errors met on the way. -/
def loadPlugins {σ : Type} (plugins : List (Plugin σ)) : List (OnResolve σ) × List Message :=
  plugins.foldl
    (fun acc plugin => (acc.1 ++ (loadPlugin plugin).1, acc.2 ++ (loadPlugin plugin).2))
    ([], [])

/-- What the bundler learns about one import from `RunOnResolvePlugins`. -/
inductive ResolveOutcome
  /-- A hook settled the import: its path, and whether it is left out of the
  bundle (`IsExternal`). -/
  | byPlugin (path : Path) (IsExternal : Bool)
  /-- A hook returned an error, error messages, or an unusable path. -/
  | pluginFailed
  /-- No hook settled the import: esbuild's own resolver looks for the file. -/
  | byResolver
  deriving DecidableEq, Repr

/-- The state after the hooks ran for one import. `calls` records, for the
proofs, the arguments of each callback invocation in order. -/
structure Dispatch (σ : Type) where
  outcome : ResolveOutcome
  captured : σ
  calls : List OnResolveArgs

/-- Go `fs.IsAbs` on Unix. -/
def IsAbs (p : GoString) : Bool := p.head? = some 47

/-- esbuild `bundler.RunOnResolvePlugins`: applies the resolve hooks in order
until one succeeds. A hook is skipped when `PluginAppliesToPath` is false for
the specifier and the importer's namespace. A callback that returns an error or
error messages stops the search; one that returns no path and is not external
passes the import on to the next hook; `External` with no path keeps the
specifier as the path. -/
def RunOnResolvePlugins {σ : Type} :
    List (OnResolve σ) → OnResolveArgs → σ → Dispatch σ
  | [], _, s => { outcome := .byResolver, captured := s, calls := [] }
  | onResolve :: later, args, s =>
    if !PluginAppliesToPath { Text := args.Path, Namespace := args.Namespace }
        onResolve.Filter onResolve.Namespace then
      RunOnResolvePlugins later args s
    else
      let answer := onResolve.Callback args s
      let response := answer.1.1
      let err := answer.1.2
      let didLogError := err.isSome || !response.Errors.isEmpty
      if didLogError then
        { outcome := .pluginFailed, captured := answer.2, calls := [args] }
      else
        let ns := if response.Namespace = [] && !response.External then str "file"
                  else response.Namespace
        if response.Path = [] then
          if response.External then
            { outcome := .byPlugin { Text := args.Path, Namespace := [] } true,
              captured := answer.2, calls := [args] }
          else
            let rest := RunOnResolvePlugins later args answer.2
            { rest with calls := args :: rest.calls }
        else if ns = str "file" && !IsAbs response.Path then
          { outcome := .pluginFailed, captured := answer.2, calls := [args] }
        else
          { outcome := .byPlugin { Text := response.Path, Namespace := ns } response.External,
            captured := answer.2, calls := [args] }

/-- The part of esbuild's build that is not plugin dispatch (scanning and
parsing the source, its own resolver, linking), seen from the hooks: it ends
with a build result, or it tries to resolve one import and goes on according
to the outcome. Which imports it finds in which source is left open. A build
makes finitely many such attempts, one after another: the only source file is
the standard input, and esbuild resolves the imports of a file in a loop. -/
inductive Bundler
  | finish (result : BuildResult)
  | resolve (args : OnResolveArgs) (next : ResolveOutcome → Bundler)

/-- The compiler front-end: the bundler process for the given standard input
and `Bundle` flag. -/
abbrev FrontEnd := Option StdinOptions → Bool → Bundler

/-- A finished build: the build result, the captured variables of the
callbacks as the build leaves them and, for the proofs, the callback
invocations (`calls`) and the imports the bundler tried to resolve
(`requests`), both in order. -/
structure BuildRun (σ : Type) where
  result : BuildResult
  captured : σ
  calls : List OnResolveArgs
  requests : List OnResolveArgs

/-- Runs the bundler process against the registered hooks. -/
def Bundler.run {σ : Type} (hooks : List (OnResolve σ)) : Bundler → σ → BuildRun σ
  | .finish result, s => { result := result, captured := s, calls := [], requests := [] }
  | .resolve args next, s =>
    let d := RunOnResolvePlugins hooks args s
    let rest := (next d.outcome).run hooks d.captured
    { rest with calls := d.calls ++ rest.calls, requests := args :: rest.requests }

/-- esbuild `api.Build`: loads the plugins and, unless that already gave
errors, runs the bundler with their hooks. -/
def Build {σ : Type} (frontEnd : FrontEnd) (options : BuildOptions σ) (s : σ) : BuildRun σ :=
  let loaded := loadPlugins options.Plugins
  if !loaded.2.isEmpty then
    { result := { Errors := loaded.2 }, captured := s, calls := [], requests := [] }
  else
    (frontEnd options.Stdin options.Bundle).run loaded.1 s

/-- The same bundler process, reporting `errors` as its error list. -/
def Bundler.withErrors (errors : List Message) : Bundler → Bundler
  | .finish result => .finish { result with Errors := errors }
  | .resolve args next => .resolve args (fun outcome => (next outcome).withErrors errors)

/-! ## Go `log` -/

/-- An operand of a `log.Printf` call. -/
inductive Operand
  | string (s : GoString)
  | messages (ms : List Message)
  deriving DecidableEq, Repr

/-- One `log.Printf(format, v...)` call: one message on the log. -/
structure Printf where
  format : GoString
  v : List Operand
  deriving DecidableEq, Repr

/-! ## The parser of `gazelle/parser.go` -/

/-- Go `FileImportInfo`: the path being imported and the source line number
of the import (`uint32`). -/
structure FileImportInfo where
  Path : GoString
  LineNumber : Nat
  deriving DecidableEq, Repr

/-- Go `Parser`: a struct with no fields. -/
structure Parser where
  deriving DecidableEq, Repr

/-- Go `NewParser`. -/
def NewParser : Parser := {}

/-- The `callback` closure of `ParseImports`, a handler for esbuild
resolutions: adds the imported string to the list of imports (the captured
variable) and marks the import as external. -/
def ParseImports.callback : Callback (List FileImportInfo) :=
  fun args imports =>
    (({ External := true }, none),
     imports ++ [{ Path := args.Path, LineNumber := 0 }])

/-- The `plugin` of `ParseImports`: its `Setup` sets the plugin's onResolve
callback to `callback`, with `Filter: ".*"` so that it runs on all imports. -/
def ParseImports.plugin : Plugin (List FileImportInfo) :=
  { Name := str "GetImports"
    Setup := fun pluginBuild =>
      pluginBuild.OnResolve { Filter := str ".*", Namespace := str "" } ParseImports.callback }

/-- The `options` of `ParseImports`. -/
def ParseImports.options (filePath source : GoString) : BuildOptions (List FileImportInfo) :=
  { Stdin := some { Contents := source, Sourcefile := filePath,
                    Loader := filenameToLoader filePath }
    Plugins := [ParseImports.plugin]
    Bundle := true }

/-- The call `api.Build(options)` in `ParseImports`, made with
`imports := []FileImportInfo{}`. -/
def ParseImports.build (frontEnd : FrontEnd) (filePath source : GoString) :
    BuildRun (List FileImportInfo) :=
  Build frontEnd (ParseImports.options filePath source) []

/-- Go `Parser.ParseImports`: returns all the imports from a file after
parsing it. The second component is what the call writes to the log. -/
def Parser.ParseImports (_p : Parser) (frontEnd : FrontEnd) (filePath source : GoString) :
    List FileImportInfo × List Printf :=
  let run := ParseImports.build frontEnd filePath source
  let result := run.result
  let log :=
    if result.Errors.length > 0 then
      [{ format := str "Encountered errors parsing source %v: %v\n",
         v := [Operand.string filePath, Operand.messages result.Errors] }]
    else []
  (run.captured, log)

/-- The single hook `ParseImports` ends up with: the registration of its
plugin, the filter `.*` compiled. -/
def ParseImports.hook : OnResolve (List FileImportInfo) :=
  { Name := str "GetImports"
    Filter := Regexp.concat (Regexp.star Regexp.anyCharNotNL) Regexp.emptyMatch
    Namespace := []
    Callback := ParseImports.callback }

/-- The entry the callback records for one invocation. -/
def ParseImports.entry (args : OnResolveArgs) : FileImportInfo :=
  { Path := args.Path, LineNumber := 0 }

/-! ## The process around a call

`ParseImports` seen as a step of the running process: the state it finds and
leaves is the heap, the output of package `log`, and what esbuild itself
prints and writes. -/

/-- What `api.Build` prints on standard error for a finished build: nothing at
the silent level, the errors at the error level, errors and warnings at the
other levels. Which messages appear is modelled, not their layout. -/
def Build.printed {σ : Type} (options : BuildOptions σ) (result : BuildResult) :
    List Message :=
  match options.LogLevel with
  | .LogLevelSilent => []
  | .LogLevelError => result.Errors
  | _ => result.Errors ++ result.Warnings

/-- What `api.Build` writes out for a finished build: its output files when
`Write` is set, nothing otherwise (the files are then only returned). -/
def Build.written {σ : Type} (options : BuildOptions σ) (result : BuildResult) :
    List OutputFile :=
  if options.Write then result.OutputFiles else []

/-- The Go heap as far as this package allocates on it: the `[]FileImportInfo`
variables created so far, by address. -/
abbrev Heap := List (List FileImportInfo)

/-- The value of the variable at address `ref`. -/
def Heap.read (heap : Heap) (ref : Nat) : List FileImportInfo := heap.getD ref []

/-- Assigns `value` to the variable at address `ref`. -/
def Heap.write (heap : Heap) (ref : Nat) (value : List FileImportInfo) : Heap :=
  heap.set ref value

/-- The state of the process between two calls: the heap, the messages written
through package `log`, the messages esbuild printed, and the files esbuild
wrote, each in order. -/
structure Process where
  heap : Heap
  log : List Printf
  printed : List Message
  files : List OutputFile
  deriving DecidableEq, Repr

/-- The `callback` closure of `ParseImports`, with the variable `imports` it
captures kept on the heap at address `imports`:
`imports = append(imports, FileImportInfo{Path: args.Path, LineNumber: 0})`. -/
def ParseImports.callbackAt (imports : Nat) : Callback Heap :=
  fun args heap =>
    (({ External := true }, none),
     Heap.write heap imports
       (Heap.read heap imports ++ [{ Path := args.Path, LineNumber := 0 }]))

/-- The `plugin` of `ParseImports`, over the heap. -/
def ParseImports.pluginAt (imports : Nat) : Plugin Heap :=
  { Name := str "GetImports"
    Setup := fun pluginBuild =>
      pluginBuild.OnResolve { Filter := str ".*", Namespace := str "" }
        (ParseImports.callbackAt imports) }

/-- The `options` of `ParseImports`, over the heap. -/
def ParseImports.optionsAt (imports : Nat) (filePath source : GoString) : BuildOptions Heap :=
  { Stdin := some { Contents := source, Sourcefile := filePath,
                    Loader := filenameToLoader filePath }
    Plugins := [ParseImports.pluginAt imports]
    Bundle := true }

/-- Go `Parser.ParseImports` as a step of the process. `imports :=
[]FileImportInfo{}` allocates a new variable, at the first free address; the
build runs on the heap and puts out what `api.Build` puts out for these
options; `log.Printf` adds to the log; the call returns the value of
`imports`. The result is the returned list and the state the call leaves. -/
def Parser.ParseImportsIn (_p : Parser) (frontEnd : FrontEnd) (filePath source : GoString)
    (pr : Process) : List FileImportInfo × Process :=
  let imports := pr.heap.length
  let heap := pr.heap ++ [[]]
  let options := ParseImports.optionsAt imports filePath source
  let run := Build frontEnd options heap
  let result := run.result
  let printed := pr.printed ++ Build.printed options result
  let files := pr.files ++ Build.written options result
  let log :=
    if result.Errors.length > 0 then
      pr.log ++ [{ format := str "Encountered errors parsing source %v: %v\n",
                   v := [Operand.string filePath, Operand.messages result.Errors] }]
    else pr.log
  (Heap.read run.captured imports,
   { heap := run.captured, log := log, printed := printed, files := files })

/-- Two calls of `ParseImports` on the same input, one after the other: the
second starts in the state the first leaves. The result is the two returned
lists and the final state. -/
def Parser.ParseImportsTwice (p : Parser) (frontEnd : FrontEnd) (filePath source : GoString)
    (pr : Process) : (List FileImportInfo × List FileImportInfo) × Process :=
  let first := p.ParseImportsIn frontEnd filePath source pr
  let second := p.ParseImportsIn frontEnd filePath source first.2
  ((first.1, second.1), second.2)

/-- The single hook of `ParseImports` over the heap, the filter compiled. -/
def ParseImports.hookAt (imports : Nat) : OnResolve Heap :=
  { Name := str "GetImports"
    Filter := Regexp.concat (Regexp.star Regexp.anyCharNotNL) Regexp.emptyMatch
    Namespace := []
    Callback := ParseImports.callbackAt imports }

/-! ## Concrete inputs for the examples -/

/-- The resolve request for an `import` statement of specifier `p` in the
standard-input file. -/
def importOf (p : String) : OnResolveArgs :=
  { Path := str p, Importer := str "<stdin>", Namespace := str "file",
    ResolveDir := [], Kind := ResolveKind.ResolveJSImportStatement }

/-- A front-end run that tries to resolve `x`, `y` and `x` again, going on only
while the imports are answered as external, and reports no error. -/
def sampleFrontEnd : FrontEnd := fun _ _ =>
  .resolve (importOf "x") fun _ =>
    .resolve (importOf "y") fun outcome =>
      match outcome with
      | .byPlugin _ true => .resolve (importOf "x") fun _ => .finish {}
      | _ => .finish { Errors := [{ PluginName := [], Text := str "Could not resolve \"y\"" }] }

/-- A front-end run that meets a syntax error and resolves nothing. -/
def failingFrontEnd : FrontEnd := fun _ _ =>
  .finish { Errors := [{ PluginName := [], Text := str "Unexpected \"=\"" }] }

/-- What `filepath.Join` gives for a clean directory and a plain file name: the
two joined by a slash. -/
def joinPlain (dir name : GoString) : GoString := dir ++ str "/" ++ name

/-- A file-system state with the one file `src/a.ts`. -/
def sampleFileSystem : FileSystem := fun path =>
  if path = str "src/a.ts" then .ok (.regular (str "import \"x\"\n"))
  else .error Errno.ENOENT

/-- A process state with two earlier lists on the heap and one earlier log
message. -/
def sampleProcess : Process :=
  { heap := [[{ Path := str "old", LineNumber := 0 }], []]
    log := [{ format := str "started\n", v := [] }]
    printed := []
    files := [] }

/-- A front-end run that tries to resolve `x`, reports a warning and an error,
and has one output file. -/
def noisyFrontEnd : FrontEnd := fun _ _ =>
  .resolve (importOf "x") fun _ =>
    .finish { Errors := [{ PluginName := [], Text := str "Unexpected \")\"" }]
              Warnings := [{ PluginName := [], Text := str "Unused label" }]
              OutputFiles := [{ Path := str "<stdout>", Contents := str "x;\n" }] }

/-! ## Lemmas: `filepath.Ext` -/

theorem Ext_loop_append (pre : GoString) :
    ∀ suf : GoString, Ext.loop (pre ++ suf) pre.length = extRev pre.reverse suf := by
  induction pre using List.reverseRecOn with
  | nil => intro suf; simp [Ext.loop, extRev]
  | append_singleton pre c ih =>
    intro suf
    have h1 : (pre ++ [c] ++ suf)[pre.length]? = some c := by
      rw [List.append_assoc, List.getElem?_append_right (Nat.le_refl _)]
      simp
    have h2 : (pre ++ [c] ++ suf).drop pre.length = c :: suf := by
      simp [List.drop_append_eq_append_drop]
    have h3 : pre ++ [c] ++ suf = pre ++ (c :: suf) := by simp
    simp only [List.length_append, List.length_singleton, Ext.loop, h1, h2,
      List.reverse_append, List.reverse_singleton, List.singleton_append, extRev]
    rw [h3, ih (c :: suf)]

theorem extRev_eq (r : List UInt8) :
    ∀ suf : GoString, extRev r suf =
      if (46 : UInt8) ∈ r.takeWhile (fun c => !IsPathSeparator c) then
        46 :: (((r.takeWhile (fun c => !IsPathSeparator c)).takeWhile
          (fun c => decide (c ≠ 46))).reverse ++ suf)
      else [] := by
  induction r with
  | nil => intro suf; simp [extRev]
  | cons c r ih =>
    intro suf
    by_cases hs : IsPathSeparator c = true
    · simp [extRev, hs, List.takeWhile_cons]
    · by_cases hd : c = 46
      · subst hd
        simp [extRev, hs, List.takeWhile_cons]
      · have hd2 : ¬ (46 : UInt8) = c := fun h => hd h.symm
        simp only [extRev, hs, hd, List.takeWhile_cons, ih (c :: suf)]
        simp [hd, hd2]

theorem Ext_eq_suffixFromLastDot (path : GoString) :
    Ext path = suffixFromLastDot (lastElement path) := by
  have h := Ext_loop_append path []
  simp only [List.append_nil] at h
  unfold Ext
  rw [h, extRev_eq]
  simp [suffixFromLastDot, lastElement]

/-! ## Lemmas: the hook of `ParseImports` under esbuild's dispatch -/

theorem Compile_dotStar :
    Compile (str ".*") = some (Regexp.concat (Regexp.star Regexp.anyCharNotNL) Regexp.emptyMatch) := by
  decide

theorem MatchString_of_nullable (re : Regexp) (h : re.nullable = true) (s : GoString) :
    re.MatchString s = true := by
  unfold Regexp.MatchString
  rw [List.any_eq_true]
  refine ⟨0, by simp, ?_⟩
  rw [List.any_eq_true]
  refine ⟨0, by simp, ?_⟩
  simpa [Regexp.fullMatch] using h

theorem loadPlugins_plugin :
    loadPlugins [ParseImports.plugin] = ([ParseImports.hook], []) := by
  have h : str "" = [] := rfl
  simp [loadPlugins, loadPlugin, ParseImports.plugin, PluginBuild.OnResolve, Compile_dotStar,
    ParseImports.hook, h]

theorem hook_applies (path : Path) :
    PluginAppliesToPath path ParseImports.hook.Filter ParseImports.hook.Namespace = true := by
  simp [PluginAppliesToPath, ParseImports.hook, MatchString_of_nullable, Regexp.nullable]

theorem RunOnResolvePlugins_hook (args : OnResolveArgs) (imports : List FileImportInfo) :
    RunOnResolvePlugins [ParseImports.hook] args imports =
      { outcome := .byPlugin { Text := args.Path, Namespace := [] } true
        captured := imports ++ [ParseImports.entry args]
        calls := [args] } := by
  have h := hook_applies { Text := args.Path, Namespace := args.Namespace }
  simp [RunOnResolvePlugins, h]
  simp [ParseImports.hook, ParseImports.callback, ParseImports.entry]

theorem run_hook (b : Bundler) :
    ∀ imports : List FileImportInfo,
      (b.run [ParseImports.hook] imports).captured =
          imports ++ (b.run [ParseImports.hook] imports).calls.map ParseImports.entry ∧
      (b.run [ParseImports.hook] imports).calls =
          (b.run [ParseImports.hook] imports).requests := by
  induction b with
  | finish result => intro imports; simp [Bundler.run]
  | resolve args next ih =>
    intro imports
    simp only [Bundler.run, RunOnResolvePlugins_hook]
    obtain ⟨h1, h2⟩ := ih (.byPlugin { Text := args.Path, Namespace := [] } true)
      (imports ++ [ParseImports.entry args])
    constructor
    · rw [h1]; simp
    · rw [h2]; simp


theorem Build_options (frontEnd : FrontEnd) (filePath source : GoString)
    (imports : List FileImportInfo) :
    Build frontEnd (ParseImports.options filePath source) imports =
      (frontEnd (ParseImports.options filePath source).Stdin true).run
        [ParseImports.hook] imports := by
  simp [Build, ParseImports.options, loadPlugins_plugin]

theorem run_withErrors {σ : Type} (hooks : List (OnResolve σ)) (errors : List Message)
    (b : Bundler) :
    ∀ s : σ,
      ((b.withErrors errors).run hooks s).captured = (b.run hooks s).captured ∧
      ((b.withErrors errors).run hooks s).calls = (b.run hooks s).calls ∧
      ((b.withErrors errors).run hooks s).requests = (b.run hooks s).requests ∧
      ((b.withErrors errors).run hooks s).result.Errors = errors := by
  induction b with
  | finish result => intro s; simp [Bundler.withErrors, Bundler.run]
  | resolve args next ih =>
    intro s
    obtain ⟨h1, h2, h3, h4⟩ :=
      ih (RunOnResolvePlugins hooks args s).outcome (RunOnResolvePlugins hooks args s).captured
    simp only [Bundler.withErrors, Bundler.run, h1, h2, h3, h4, and_self]

theorem run_hook_start (b : Bundler) :
    ∀ imports : List FileImportInfo,
      (b.run [ParseImports.hook] imports).calls = (b.run [ParseImports.hook] []).calls ∧
      (b.run [ParseImports.hook] imports).result = (b.run [ParseImports.hook] []).result := by
  induction b with
  | finish result => intro imports; simp [Bundler.run]
  | resolve args next ih =>
    intro imports
    simp only [Bundler.run, RunOnResolvePlugins_hook]
    obtain ⟨h1, h2⟩ := ih (.byPlugin { Text := args.Path, Namespace := [] } true)
      (imports ++ [ParseImports.entry args])
    obtain ⟨h3, h4⟩ := ih (.byPlugin { Text := args.Path, Namespace := [] } true)
      ([] ++ [ParseImports.entry args])
    rw [h1, h2, h3, h4]
    simp

theorem ParseImports_fst (p : Parser) (frontEnd : FrontEnd) (filePath source : GoString) :
    (p.ParseImports frontEnd filePath source).1 =
      (ParseImports.build frontEnd filePath source).calls.map ParseImports.entry := by
  have h := (run_hook (frontEnd (ParseImports.options filePath source).Stdin true) []).1
  simp only [Parser.ParseImports, ParseImports.build, Build_options]
  simpa using h

/-! ## Lemmas: the call as a step of the process -/

theorem Heap.read_write (heap : Heap) (ref : Nat) (value : List FileImportInfo)
    (h : ref < heap.length) : Heap.read (Heap.write heap ref value) ref = value := by
  simp [Heap.read, Heap.write, List.getD_eq_getElem?_getD, List.getElem?_set, h]

theorem Heap.write_write (heap : Heap) (ref : Nat) (v w : List FileImportInfo) :
    Heap.write (Heap.write heap ref v) ref w = Heap.write heap ref w := by
  simp [Heap.write, List.set_set]

theorem Heap.write_read (heap : Heap) (ref : Nat) (h : ref < heap.length) :
    Heap.write heap ref (Heap.read heap ref) = heap := by
  apply List.ext_getElem?
  intro i
  by_cases hi : ref = i
  · subst hi
    simp [Heap.read, Heap.write, List.getD_eq_getElem?_getD, List.getElem?_set, h]
  · simp [Heap.write, List.getElem?_set, hi]

theorem Heap.length_write (heap : Heap) (ref : Nat) (value : List FileImportInfo) :
    (Heap.write heap ref value).length = heap.length := by
  simp [Heap.write]

theorem Heap.write_new (heap : Heap) (v w : List FileImportInfo) :
    Heap.write (heap ++ [v]) heap.length w = heap ++ [w] := by
  simp [Heap.write]

theorem Heap.read_new (heap : Heap) (v : List FileImportInfo) :
    Heap.read (heap ++ [v]) heap.length = v := by
  simp [Heap.read, List.getD_eq_getElem?_getD]

theorem loadPlugins_pluginAt (imports : Nat) :
    loadPlugins [ParseImports.pluginAt imports] = ([ParseImports.hookAt imports], []) := by
  have h : str "" = [] := rfl
  simp [loadPlugins, loadPlugin, ParseImports.pluginAt, PluginBuild.OnResolve, Compile_dotStar,
    ParseImports.hookAt, h]

theorem RunOnResolvePlugins_hookAt (imports : Nat) (args : OnResolveArgs) (heap : Heap) :
    RunOnResolvePlugins [ParseImports.hookAt imports] args heap =
      { outcome := .byPlugin { Text := args.Path, Namespace := [] } true
        captured := Heap.write heap imports (Heap.read heap imports ++ [ParseImports.entry args])
        calls := [args] } := by
  have h := hook_applies { Text := args.Path, Namespace := args.Namespace }
  have h2 : PluginAppliesToPath { Text := args.Path, Namespace := args.Namespace }
      (ParseImports.hookAt imports).Filter (ParseImports.hookAt imports).Namespace = true := h
  simp [RunOnResolvePlugins, h2]
  simp [ParseImports.hookAt, ParseImports.callbackAt, ParseImports.entry]

theorem run_hookAt (b : Bundler) (imports : Nat) :
    ∀ heap : Heap, imports < heap.length →
      (b.run [ParseImports.hookAt imports] heap).result =
          (b.run [ParseImports.hook] (Heap.read heap imports)).result ∧
      (b.run [ParseImports.hookAt imports] heap).calls =
          (b.run [ParseImports.hook] (Heap.read heap imports)).calls ∧
      (b.run [ParseImports.hookAt imports] heap).captured =
          Heap.write heap imports
            (b.run [ParseImports.hook] (Heap.read heap imports)).captured := by
  induction b with
  | finish result =>
    intro heap h
    simp [Bundler.run, Heap.write_read heap imports h]
  | resolve args next ih =>
    intro heap h
    simp only [Bundler.run, RunOnResolvePlugins_hookAt, RunOnResolvePlugins_hook]
    have hlen : imports < (Heap.write heap imports
        (Heap.read heap imports ++ [ParseImports.entry args])).length := by
      rw [Heap.length_write]; exact h
    obtain ⟨h1, h2, h3⟩ := ih (.byPlugin { Text := args.Path, Namespace := [] } true) _ hlen
    rw [Heap.read_write heap imports _ h] at h1 h2 h3
    rw [h1, h2, h3, Heap.write_write]
    simp

theorem ParseImportsIn_eq (p : Parser) (frontEnd : FrontEnd) (filePath source : GoString)
    (pr : Process) :
    p.ParseImportsIn frontEnd filePath source pr =
      ((p.ParseImports frontEnd filePath source).1,
       { heap := pr.heap ++ [(p.ParseImports frontEnd filePath source).1]
         log := pr.log ++ (p.ParseImports frontEnd filePath source).2
         printed := pr.printed
         files := pr.files }) := by
  have hb : Build frontEnd (ParseImports.optionsAt pr.heap.length filePath source)
        (pr.heap ++ [[]]) =
      (frontEnd (ParseImports.options filePath source).Stdin true).run
        [ParseImports.hookAt pr.heap.length] (pr.heap ++ [[]]) := by
    simp [Build, ParseImports.optionsAt, ParseImports.options, loadPlugins_pluginAt]
  have hlen : pr.heap.length < (pr.heap ++ [([] : List FileImportInfo)]).length := by simp
  obtain ⟨h1, _, h3⟩ :=
    run_hookAt (frontEnd (ParseImports.options filePath source).Stdin true) pr.heap.length
      (pr.heap ++ [[]]) hlen
  rw [Heap.read_new] at h1 h3
  rw [Heap.write_new] at h3
  simp only [Parser.ParseImportsIn, Parser.ParseImports, ParseImports.build, Build_options, hb,
    h1, h3, Heap.read_new]
  cases hE : ((frontEnd (ParseImports.options filePath source).Stdin true).run
      [ParseImports.hook] []).result.Errors <;>
    simp [Build.printed, Build.written, ParseImports.optionsAt]

/-! ## The claims -/

/-- C1: for every file path `p`, `filenameToLoader p` is decided by an exact,
case-sensitive comparison of `filepath.Ext p`, which is the suffix starting at
the last dot of the last path element: the TypeScript loader for `.ts`, the TSX
loader for `.tsx`, the JSX loader for `.js` and `.jsx`, and the TypeScript
loader for every other extension or none; so `foo.jsx` gives JSX, `foo.ts`
gives TS, and `foo.JSX`, `foo` and `a.js/b` give TS. -/
theorem filenameToLoader_dispatch (p : GoString) :
    Ext p = suffixFromLastDot (lastElement p) ∧
    filenameToLoader p =
      (if Ext p = str ".ts" then Loader.LoaderTS
       else if Ext p = str ".tsx" then Loader.LoaderTSX
       else if Ext p = str ".js" ∨ Ext p = str ".jsx" then Loader.LoaderJSX
       else Loader.LoaderTS) ∧
    (filenameToLoader p = Loader.LoaderTSX ↔ Ext p = str ".tsx") ∧
    (filenameToLoader p = Loader.LoaderJSX ↔ Ext p = str ".js" ∨ Ext p = str ".jsx") ∧
    (filenameToLoader p = Loader.LoaderTS ↔
      Ext p ≠ str ".tsx" ∧ Ext p ≠ str ".js" ∧ Ext p ≠ str ".jsx") ∧
    (∀ q : GoString, Ext q = Ext p → filenameToLoader q = filenameToLoader p) ∧
    filenameToLoader (str "foo.jsx") = Loader.LoaderJSX ∧
    filenameToLoader (str "foo.ts") = Loader.LoaderTS ∧
    filenameToLoader (str "foo.JSX") = Loader.LoaderTS ∧
    filenameToLoader (str "foo") = Loader.LoaderTS ∧
    filenameToLoader (str "a.js/b") = Loader.LoaderTS := by
  have hts : str ".ts" ≠ str ".tsx" := by decide
  have htj : str ".ts" ≠ str ".js" := by decide
  have htx : str ".ts" ≠ str ".jsx" := by decide
  have hxj : str ".tsx" ≠ str ".js" := by decide
  have hxx : str ".tsx" ≠ str ".jsx" := by decide
  have hjx : str ".js" ≠ str ".jsx" := by decide
  refine ⟨Ext_eq_suffixFromLastDot p, ?_, ?_, ?_, ?_, ?_, by decide, by decide, by decide,
    by decide, by decide⟩
  · unfold filenameToLoader
    by_cases h1 : Ext p = str ".ts"
    · simp [h1]
    · by_cases h2 : Ext p = str ".tsx"
      · simp [h2]
      · by_cases h3 : Ext p = str ".js"
        · simp [h3]
        · by_cases h4 : Ext p = str ".jsx"
          · simp [h4, htx.symm, hxx.symm, hjx.symm]
          · simp [h1, h2, h3, h4]
  · unfold filenameToLoader
    by_cases h1 : Ext p = str ".ts"
    · simp [h1, hts]
    · by_cases h2 : Ext p = str ".tsx"
      · simp [h2, hts.symm]
      · by_cases h3 : Ext p = str ".js"
        · simp [h3, htj.symm, hxj.symm]
        · by_cases h4 : Ext p = str ".jsx"
          · simp [h4, htx.symm, hxx.symm, hjx.symm]
          · simp [h1, h2, h3, h4]
  · unfold filenameToLoader
    by_cases h1 : Ext p = str ".ts"
    · simp [h1, htj, htx]
    · by_cases h2 : Ext p = str ".tsx"
      · simp [h2, hts.symm, hxj, hxx]
      · by_cases h3 : Ext p = str ".js"
        · simp [h3, htj.symm, hxj.symm]
        · by_cases h4 : Ext p = str ".jsx"
          · simp [h4, htx.symm, hxx.symm, hjx.symm]
          · simp [h1, h2, h3, h4]
  · unfold filenameToLoader
    by_cases h1 : Ext p = str ".ts"
    · simp [h1, hts, htj, htx]
    · by_cases h2 : Ext p = str ".tsx"
      · simp [h2, hts.symm]
      · by_cases h3 : Ext p = str ".js"
        · simp [h3, htj.symm, hxj.symm]
        · by_cases h4 : Ext p = str ".jsx"
          · simp [h4, htx.symm, hxx.symm, hjx.symm]
          · simp [h1, h2, h3, h4]
  · intro q hq
    unfold filenameToLoader
    rw [hq]

/-- C2: the list `ParseImports` returns follows the hook invocations of the
build one for one: it has as many entries as the hook was invoked, its i-th
entry has the `Path` of the i-th invocation unchanged, and each specifier
occurs in it as often as it was intercepted. -/
theorem ParseImports_follows_hook_calls (p : Parser) (frontEnd : FrontEnd)
    (filePath source : GoString) :
    (p.ParseImports frontEnd filePath source).1.length =
      (ParseImports.build frontEnd filePath source).calls.length ∧
    (p.ParseImports frontEnd filePath source).1.map FileImportInfo.Path =
      (ParseImports.build frontEnd filePath source).calls.map OnResolveArgs.Path ∧
    (∀ i : Nat, ((p.ParseImports frontEnd filePath source).1[i]?).map FileImportInfo.Path =
      ((ParseImports.build frontEnd filePath source).calls[i]?).map OnResolveArgs.Path) ∧
    (∀ specifier : GoString,
      ((p.ParseImports frontEnd filePath source).1.map FileImportInfo.Path).count specifier =
        ((ParseImports.build frontEnd filePath source).calls.map OnResolveArgs.Path).count
          specifier) := by
  have h := ParseImports_fst p frontEnd filePath source
  have hmap : (p.ParseImports frontEnd filePath source).1.map FileImportInfo.Path =
      (ParseImports.build frontEnd filePath source).calls.map OnResolveArgs.Path := by
    rw [h, List.map_map]
    rfl
  refine ⟨by rw [h, List.length_map], hmap, ?_, ?_⟩
  · intro i
    have := congrArg (fun l => l[i]?) hmap
    simpa [List.getElem?_map] using this
  · intro specifier
    rw [hmap]

/-- C3: the errors of the build never reach the caller of `ParseImports`:
whatever error list the front-end reports, the call returns the imports the
hook collected during the build, and that list is the one returned when the
same front-end run reports no error at all. -/
theorem ParseImports_ignores_errors (p : Parser) (frontEnd : FrontEnd)
    (filePath source : GoString) (errors : List Message) :
    (p.ParseImports frontEnd filePath source).1 =
      (ParseImports.build frontEnd filePath source).calls.map ParseImports.entry ∧
    (ParseImports.build (fun stdin bundle => (frontEnd stdin bundle).withErrors errors)
      filePath source).result.Errors = errors ∧
    (p.ParseImports (fun stdin bundle => (frontEnd stdin bundle).withErrors errors)
      filePath source).1 =
      (p.ParseImports (fun stdin bundle => (frontEnd stdin bundle).withErrors [])
        filePath source).1 ∧
    (p.ParseImports (fun stdin bundle => (frontEnd stdin bundle).withErrors errors)
      filePath source).1 = (p.ParseImports frontEnd filePath source).1 := by
  have key : ∀ es : List Message,
      (p.ParseImports (fun stdin bundle => (frontEnd stdin bundle).withErrors es)
        filePath source).1 = (p.ParseImports frontEnd filePath source).1 := by
    intro es
    simp only [Parser.ParseImports, ParseImports.build, Build_options]
    exact (run_withErrors _ es _ []).1
  refine ⟨ParseImports_fst p frontEnd filePath source, ?_, ?_, key errors⟩
  · simp only [ParseImports.build, Build_options]
    exact (run_withErrors _ errors _ []).2.2.2
  · rw [key errors, key []]

/-- C4, as stated, fails: on the source `const = ;` the front-end reports a
syntax error without ever invoking the resolve hook; `ParseImports` returns
the empty list, and it does write a diagnostic to the log. -/
theorem no_imports_still_logs :
    (ParseImports.build failingFrontEnd (str "a.ts") (str "const = ;")).calls = [] ∧
    (ParseImports.build failingFrontEnd (str "a.ts") (str "const = ;")).requests = [] ∧
    (NewParser.ParseImports failingFrontEnd (str "a.ts") (str "const = ;")).1 = [] ∧
    (NewParser.ParseImports failingFrontEnd (str "a.ts") (str "const = ;")).2 ≠ [] := by
  decide

/-- C4, amended: when the front-end never invokes the resolve hook,
`ParseImports` returns an empty list, and no diagnostic is logged exactly when
the build result has no errors. -/
theorem ParseImports_without_hook_calls (p : Parser) (frontEnd : FrontEnd)
    (filePath source : GoString)
    (h : (ParseImports.build frontEnd filePath source).calls = []) :
    (p.ParseImports frontEnd filePath source).1 = [] ∧
    ((p.ParseImports frontEnd filePath source).2 = [] ↔
      (ParseImports.build frontEnd filePath source).result.Errors = []) := by
  constructor
  · rw [ParseImports_fst, h]
    rfl
  · simp only [Parser.ParseImports]
    cases (ParseImports.build frontEnd filePath source).result.Errors <;> simp

/-- The amended C4 at a front-end that finds no import and no error: the list
and the log are both empty. -/
theorem ParseImports_without_hook_calls_witness :
    (ParseImports.build (fun _ _ => Bundler.finish {}) (str "a.ts") (str "let a = 1")).calls = [] ∧
    (NewParser.ParseImports (fun _ _ => Bundler.finish {}) (str "a.ts") (str "let a = 1")).1 = [] ∧
    (NewParser.ParseImports (fun _ _ => Bundler.finish {}) (str "a.ts") (str "let a = 1")).2 = [] :=
  ⟨by decide,
   (ParseImports_without_hook_calls NewParser (fun _ _ => Bundler.finish {}) (str "a.ts")
      (str "let a = 1") (by decide)).1,
   ((ParseImports_without_hook_calls NewParser (fun _ _ => Bundler.finish {}) (str "a.ts")
      (str "let a = 1") (by decide)).2).2 (by decide)⟩

/-- C5: `ParseImports` writes to the log if and only if the build result has
at least one error; it then writes exactly one message, the `log.Printf` call
whose operands are the file path passed in and the reported error list, and it
writes nothing else. Besides the returned list the log is all the call leaves
behind: in whatever state the process is, the call adds that message to the
log and nothing else, esbuild prints nothing and writes no file, and the heap
keeps every earlier variable as it was and gains only the returned list. -/
theorem ParseImports_log (p : Parser) (frontEnd : FrontEnd) (filePath source : GoString) :
    ((p.ParseImports frontEnd filePath source).2 ≠ [] ↔
      0 < (ParseImports.build frontEnd filePath source).result.Errors.length) ∧
    ((p.ParseImports frontEnd filePath source).2 = [] ∨
      (p.ParseImports frontEnd filePath source).2 =
        [{ format := str "Encountered errors parsing source %v: %v\n",
           v := [Operand.string filePath,
                 Operand.messages (ParseImports.build frontEnd filePath source).result.Errors] }]) ∧
    (p.ParseImports frontEnd filePath source).2.length ≤ 1 ∧
    (∀ pr : Process,
      (p.ParseImportsIn frontEnd filePath source pr).1 =
        (p.ParseImports frontEnd filePath source).1 ∧
      (p.ParseImportsIn frontEnd filePath source pr).2.log =
        pr.log ++ (p.ParseImports frontEnd filePath source).2 ∧
      (p.ParseImportsIn frontEnd filePath source pr).2.printed = pr.printed ∧
      (p.ParseImportsIn frontEnd filePath source pr).2.files = pr.files ∧
      (p.ParseImportsIn frontEnd filePath source pr).2.heap =
        pr.heap ++ [(p.ParseImportsIn frontEnd filePath source pr).1]) := by
  refine ⟨?_, ?_, ?_, ?_⟩
  · simp only [Parser.ParseImports]
    cases (ParseImports.build frontEnd filePath source).result.Errors <;> simp
  · simp only [Parser.ParseImports]
    cases (ParseImports.build frontEnd filePath source).result.Errors <;> simp
  · simp only [Parser.ParseImports]
    cases (ParseImports.build frontEnd filePath source).result.Errors <;> simp
  · intro pr
    rw [ParseImportsIn_eq]
    exact ⟨rfl, rfl, rfl, rfl, rfl⟩

/-- C5 on a build that reports an error and a warning and has an output file,
in a process with earlier heap variables and an earlier log message: the call
adds the one diagnostic to the log, nothing is printed or written, and the
heap gains the returned list. -/
theorem ParseImports_log_witness :
    NewParser.ParseImportsIn noisyFrontEnd (str "a.ts") (str "import \"x\"; )") sampleProcess =
      ([{ Path := str "x", LineNumber := 0 }],
       { heap := sampleProcess.heap ++ [[{ Path := str "x", LineNumber := 0 }]]
         log := sampleProcess.log ++
           [{ format := str "Encountered errors parsing source %v: %v\n",
              v := [Operand.string (str "a.ts"),
                    Operand.messages [{ PluginName := [], Text := str "Unexpected \")\"" }]] }]
         printed := []
         files := [] }) ∧
    (NewParser.ParseImportsIn noisyFrontEnd (str "a.ts") (str "import \"x\"; )")
      sampleProcess).2.files = sampleProcess.files :=
  ⟨by decide,
   ((ParseImports_log NewParser noisyFrontEnd (str "a.ts") (str "import \"x\"; )")).2.2.2
      sampleProcess).2.2.2.1⟩

/-- C6: `Scan dir name` reads the path `filepath.Join(dir, name)` and returns
the outcome of that read unchanged: when nothing exists at the path, the
error of the read itself with empty content; when the read succeeds, a nil
error with the bytes of the file. -/
theorem Scan_returns_read (s : Scanner) (Join : GoString → GoString → GoString)
    (fs : FileSystem) (dir name : GoString) :
    s.Scan Join fs dir name =
      ((ReadFile fs (Join dir name)).2, (ReadFile fs (Join dir name)).1) ∧
    (fs (Join dir name) = .error Errno.ENOENT →
      (s.Scan Join fs dir name).1 ≠ none ∧
      s.Scan Join fs dir name =
        (some { Op := str "open", Path := Join dir name, Err := Errno.ENOENT }, [])) ∧
    (∀ data : List UInt8, fs (Join dir name) = .ok (File.regular data) →
      s.Scan Join fs dir name = (none, data)) ∧
    (∀ e : Errno, fs (Join dir name) = .error e →
      s.Scan Join fs dir name =
        (some { Op := str "open", Path := Join dir name, Err := e }, [])) ∧
    (∀ (data : List UInt8) (e : Errno), fs (Join dir name) = .ok (File.failing data e) →
      s.Scan Join fs dir name =
        (some { Op := str "read", Path := Join dir name, Err := e }, data)) := by
  refine ⟨rfl, ?_, ?_, ?_, ?_⟩
  · intro h
    simp [Scanner.Scan, ReadFile, h]
  · intro data h
    simp [Scanner.Scan, ReadFile, h]
  · intro e h
    simp [Scanner.Scan, ReadFile, h]
  · intro data e h
    simp [Scanner.Scan, ReadFile, h]

/-- C6 on a file system holding the one file `src/a.ts`: scanning `a.ts` in
`src` gives its bytes and no error, scanning `b.ts` gives the open error and
empty content. -/
theorem Scan_returns_read_witness :
    NewScanner.Scan joinPlain sampleFileSystem (str "src") (str "a.ts") =
      (none, str "import \"x\"\n") ∧
    NewScanner.Scan joinPlain sampleFileSystem (str "src") (str "b.ts") =
      (some { Op := str "open", Path := str "src/b.ts", Err := Errno.ENOENT }, []) :=
  ⟨(Scan_returns_read NewScanner joinPlain sampleFileSystem (str "src") (str "a.ts")).2.2.1
      (str "import \"x\"\n") rfl,
   ((Scan_returns_read NewScanner joinPlain sampleFileSystem (str "src") (str "b.ts")).2.1
      rfl).2⟩

/-- C7: `ParseImports` keeps no state between calls. Two calls on the same
input, the second made in the process state the first leaves, return the same
list; the list a call returns is the same in every process state and for every
parser value, and holds exactly the entries of its own hook invocations; each
call accumulates in a variable of its own, so the second call leaves the list
of the first as it was returned. -/
theorem ParseImports_no_hidden_state (p q : Parser) (frontEnd : FrontEnd)
    (filePath source : GoString) (pr : Process) :
    (p.ParseImportsTwice frontEnd filePath source pr).1.2 =
      (p.ParseImportsTwice frontEnd filePath source pr).1.1 ∧
    (∀ other : Process,
      (q.ParseImportsIn frontEnd filePath source other).1 =
        (p.ParseImportsIn frontEnd filePath source pr).1) ∧
    (p.ParseImportsTwice frontEnd filePath source pr).1.2 =
      (ParseImports.build frontEnd filePath source).calls.map ParseImports.entry ∧
    (p.ParseImportsTwice frontEnd filePath source pr).1.2.length =
      (ParseImports.build frontEnd filePath source).calls.length ∧
    (p.ParseImportsTwice frontEnd filePath source pr).2.heap =
      pr.heap ++ [(p.ParseImportsTwice frontEnd filePath source pr).1.1,
                  (p.ParseImportsTwice frontEnd filePath source pr).1.2] ∧
    (p.ParseImportsIn frontEnd filePath source pr).1 =
      (q.ParseImports frontEnd filePath source).1 ∧
    p.ParseImports frontEnd filePath source = q.ParseImports frontEnd filePath source := by
  have h := ParseImports_fst p frontEnd filePath source
  refine ⟨?_, ?_, ?_, ?_, ?_, ?_, rfl⟩
  · simp only [Parser.ParseImportsTwice, ParseImportsIn_eq]
  · intro other
    simp only [ParseImportsIn_eq]
  · simp only [Parser.ParseImportsTwice, ParseImportsIn_eq]
    exact h
  · simp only [Parser.ParseImportsTwice, ParseImportsIn_eq]
    rw [h, List.length_map]
  · simp only [Parser.ParseImportsTwice, ParseImportsIn_eq]
    simp
  · simp only [ParseImportsIn_eq]

/-- C7 on a run that resolves `x`, `y` and `x`, in a process with earlier heap
variables: both calls return the same three entries, and the heap holds the
two lists next to what was there. -/
theorem ParseImports_no_hidden_state_witness :
    NewParser.ParseImportsTwice sampleFrontEnd (str "a.ts") (str "") sampleProcess =
      (([{ Path := str "x", LineNumber := 0 }, { Path := str "y", LineNumber := 0 },
         { Path := str "x", LineNumber := 0 }],
        [{ Path := str "x", LineNumber := 0 }, { Path := str "y", LineNumber := 0 },
         { Path := str "x", LineNumber := 0 }]),
       { sampleProcess with
         heap := sampleProcess.heap ++
           [[{ Path := str "x", LineNumber := 0 }, { Path := str "y", LineNumber := 0 },
             { Path := str "x", LineNumber := 0 }],
            [{ Path := str "x", LineNumber := 0 }, { Path := str "y", LineNumber := 0 },
             { Path := str "x", LineNumber := 0 }]] }) ∧
    (NewParser.ParseImportsTwice sampleFrontEnd (str "a.ts") (str "") sampleProcess).1.2 =
      (NewParser.ParseImportsTwice sampleFrontEnd (str "a.ts") (str "") sampleProcess).1.1 :=
  ⟨by decide,
   (ParseImports_no_hidden_state NewParser NewParser sampleFrontEnd (str "a.ts") (str "")
      sampleProcess).1⟩

/-- C8: for every specifier handed to it, the resolve hook answers with
`External` set to true, every other field of the result at its zero value, and
a nil error; its only other effect is to append one entry for that specifier
to the accumulated list; and esbuild's dispatch settles the import as
external under the specifier itself, so it is neither looked up nor failed. -/
theorem callback_marks_external (args : OnResolveArgs) (imports : List FileImportInfo) :
    (ParseImports.callback args imports).1.1.External = true ∧
    (ParseImports.callback args imports).1.1 = { External := true } ∧
    (ParseImports.callback args imports).1.2 = none ∧
    (ParseImports.callback args imports).2 =
      imports ++ [{ Path := args.Path, LineNumber := 0 }] ∧
    (RunOnResolvePlugins (loadPlugins [ParseImports.plugin]).1 args imports).outcome =
      ResolveOutcome.byPlugin { Text := args.Path, Namespace := [] } true ∧
    (RunOnResolvePlugins (loadPlugins [ParseImports.plugin]).1 args imports).calls = [args] := by
  refine ⟨rfl, rfl, rfl, rfl, ?_, ?_⟩
  · rw [loadPlugins_plugin, RunOnResolvePlugins_hook]
  · rw [loadPlugins_plugin, RunOnResolvePlugins_hook]

/-- C9: the filter `.*` with the empty namespace applies to every specifier in
every namespace, the empty specifier and one with a newline or a slash
included; `ParseImports` passes one plugin, whose `Setup` registers one hook
with that filter; and in every build the hook is invoked exactly on the
imports the front-end tries to resolve. -/
theorem filter_catches_all (frontEnd : FrontEnd) (filePath source : GoString) :
    (∃ filter : Regexp, Compile (str ".*") = some filter ∧
      ∀ path : Path, PluginAppliesToPath path filter (str "") = true) ∧
    (∃ filter : Regexp, Compile (str ".*") = some filter ∧
      filter.MatchString (str "") = true ∧ filter.MatchString (str "a\nb") = true ∧
      filter.MatchString (str "../a/b") = true) ∧
    (ParseImports.options filePath source).Plugins.length = 1 ∧
    (ParseImports.options filePath source).Plugins.map
        (fun plugin => (plugin.Setup []).map Prod.fst) =
      [[{ Filter := str ".*", Namespace := str "" }]] ∧
    (loadPlugins (ParseImports.options filePath source).Plugins).1.length = 1 ∧
    (loadPlugins (ParseImports.options filePath source).Plugins).2 = [] ∧
    (ParseImports.build frontEnd filePath source).calls =
      (ParseImports.build frontEnd filePath source).requests := by
  have hn : (Regexp.concat (Regexp.star Regexp.anyCharNotNL) Regexp.emptyMatch).nullable = true :=
    rfl
  refine ⟨⟨_, Compile_dotStar, ?_⟩, ⟨_, Compile_dotStar, ?_, ?_, ?_⟩, rfl, rfl, ?_, ?_, ?_⟩
  · intro path
    exact hook_applies path
  · exact MatchString_of_nullable _ hn _
  · exact MatchString_of_nullable _ hn _
  · exact MatchString_of_nullable _ hn _
  · show (loadPlugins [ParseImports.plugin]).1.length = 1
    rw [loadPlugins_plugin]
    rfl
  · show (loadPlugins [ParseImports.plugin]).2 = []
    rw [loadPlugins_plugin]
  · simp only [ParseImports.build, Build_options]
    exact (run_hook _ []).2

/-- C10: every entry of every list `ParseImports` returns has `LineNumber`
equal to 0. -/
theorem ParseImports_LineNumber_zero (p : Parser) (frontEnd : FrontEnd)
    (filePath source : GoString) (info : FileImportInfo)
    (h : info ∈ (p.ParseImports frontEnd filePath source).1) :
    info.LineNumber = 0 := by
  rw [ParseImports_fst, List.mem_map] at h
  obtain ⟨args, _, rfl⟩ := h
  rfl

/-- C10 on a run that resolves `x`, `y` and `x`: the entry for `y` is in the
returned list, and its line number is 0. -/
theorem ParseImports_LineNumber_zero_witness :
    ({ Path := str "y", LineNumber := 0 } : FileImportInfo) ∈
      (NewParser.ParseImports sampleFrontEnd (str "a.ts") (str "")).1 ∧
    ({ Path := str "y", LineNumber := 0 } : FileImportInfo).LineNumber = 0 :=
  ⟨by decide,
   ParseImports_LineNumber_zero NewParser sampleFrontEnd (str "a.ts") (str "")
     { Path := str "y", LineNumber := 0 } (by decide)⟩

end Gazelle
